import Mathlib

set_option autoImplicit false

/-!
Verification development for the softlight automation framework.

This file gives a shallow embedding, in Lean 4, of the DOM
extraction/serialization pipeline and the agent step loop of the framework,
translated from the Python sources under
`softlight_automation_framework/`, together with theorems settling the
behavioural claims about that code.

Conventions used throughout:
* Python dicts keyed by strings or ints become association lists together
  with last-write-wins lookup (`dictGet`, `dictSet`), matching dict
  assignment/overwrite semantics.
* Python floats become `ℚ`; all arithmetic performed by the embedded code on
  these quantities is exact at the magnitudes involved.
* `None`/optional values become `Option`; raising an exception becomes
  `Except`.
* Truthiness tests on optional strings (`if self.attributes.get("onclick")`)
  are translated explicitly: the value is truthy iff it is present and
  non-empty.
-/

/-! ## Generic dictionary helpers (Python `dict` semantics on assoc lists) -/

/-- Last-write-wins lookup, the semantics of building a Python dict by
repeated assignment and then indexing it. -/
def dictGet {κ α : Type} [DecidableEq κ] (m : List (κ × α)) (k : κ) : Option α :=
  m.foldl (fun acc p => if p.1 = k then some p.2 else acc) none

/-- Python dict assignment `m[k] = v`: replaces the binding in place if the
key is present, otherwise appends it (insertion order preserved). -/
def dictSet {κ α : Type} [DecidableEq κ] (m : List (κ × α)) (k : κ) (v : α) :
    List (κ × α) :=
  if m.any (fun p => p.1 = k) then
    m.map (fun p => if p.1 = k then (k, v) else p)
  else
    m ++ [(k, v)]

theorem mem_dictSet {κ α : Type} [DecidableEq κ] {m : List (κ × α)} {k : κ} {v : α}
    {p : κ × α} (h : p ∈ dictSet m k v) : p ∈ m ∨ p = (k, v) := by
  unfold dictSet at h
  split at h
  · rcases List.mem_map.mp h with ⟨q, hq, hqe⟩
    by_cases hk : q.1 = k
    · right
      simp only [hk, if_pos] at hqe
      exact hqe.symm
    · left
      simp only [hk, if_neg, not_false_iff] at hqe
      exact hqe ▸ hq
  · rcases List.mem_append.mp h with h | h
    · exact Or.inl h
    · right; simpa using h

theorem dictSet_eq_append {κ α : Type} [DecidableEq κ] {m : List (κ × α)} {k : κ}
    {v : α} (h : ∀ p ∈ m, p.1 ≠ k) : dictSet m k v = m ++ [(k, v)] := by
  unfold dictSet
  have : m.any (fun p => p.1 = k) = false := by
    simp only [List.any_eq_false, decide_eq_true_eq]
    intro p hp
    exact h p hp
  simp [this]

/-! ## `tools/views.py`: `ActionResult` and its pydantic validator -/

/-- Result of executing an action (`ActionResult` in `tools/views.py`).
`metadata` values (`Any` in the source) are modelled as strings; they are
never inspected by the embedded code. -/
structure ActionResult where
  is_done : Bool := false
  success : Option Bool := none
  extracted_content : Option String := none
  long_term_memory : Option String := none
  error : Option String := none
  metadata : Option (List (String × String)) := none
  attachments : Option (List String) := none
  include_screenshot : Bool := false
deriving Repr, DecidableEq

/-- The `model_validator(mode='after')` named `validate_success_requires_done`:
it raises (a pydantic `ValidationError`) exactly when `success is True` while
`is_done` is not `True`; otherwise construction succeeds and returns the
model unchanged. -/
def ActionResult.validate_success_requires_done (r : ActionResult) :
    Except String ActionResult :=
  if r.success = some true ∧ r.is_done = false then
    .error "success=True can only be set when is_done=True. For regular actions that succeed, leave success as None."
  else
    .ok r

/-- Python truthiness of `result.error` (`None` and `""` are falsy). -/
def ActionResult.errTruthy (r : ActionResult) : Bool :=
  match r.error with
  | some s => s ≠ ""
  | none => false

/-- The default-constructed `ActionResult()`. -/
def defaultActionResult : ActionResult := {}

/-! ## `dom/views.py`: rectangles, computed styles, visibility -/

/-- Bounding rectangle for a DOM element (`DOMRect`). -/
structure DOMRect where
  x : ℚ
  y : ℚ
  width : ℚ
  height : ℚ
deriving Repr, DecidableEq

/-- Computed CSS styles for an element (`ComputedStyles`), with the source's
field defaults. -/
structure ComputedStyles where
  display : String := "block"
  visibility : String := "visible"
  opacity : String := "1"
  position : String := "static"
  overflow : String := "visible"
  pointer_events : String := "auto"
deriving Repr, DecidableEq

/-- Numeric value of a digit string. -/
def digitsToNat (cs : List Char) : Nat :=
  cs.foldl (fun a c => 10 * a + (c.toNat - 48)) 0

/-- Model of Python `float(s)` restricted to the plain decimal literals that
occur as computed-style opacity values: optional surrounding whitespace,
optional sign, an integer part and/or a fractional part. Any other shape is a
`ValueError`, i.e. `none`. -/
def parseDecimal? (s : String) : Option ℚ :=
  let cs := s.trim.toList
  let signAndRest : ℚ × List Char :=
    match cs with
    | '-' :: rest => (-1, rest)
    | '+' :: rest => (1, rest)
    | _ => (1, cs)
  let sign := signAndRest.1
  let body := signAndRest.2
  let intPart := body.takeWhile Char.isDigit
  let afterInt := body.dropWhile Char.isDigit
  match afterInt with
  | [] =>
    if intPart.isEmpty then none
    else some (sign * (digitsToNat intPart : ℚ))
  | '.' :: fracTail =>
    let fracPart := fracTail.takeWhile Char.isDigit
    let afterFrac := fracTail.dropWhile Char.isDigit
    if afterFrac.isEmpty ∧ ¬(intPart.isEmpty ∧ fracPart.isEmpty) then
      some (sign * ((digitsToNat intPart : ℚ) +
        (digitsToNat fracPart : ℚ) / (10 ^ fracPart.length : ℚ)))
    else none
  | _ => none

/-- `ComputedStyles.is_visible`: false if display is none, visibility is
hidden, or the opacity string parses to a value ≤ 0 (parse failures are
swallowed); true otherwise. -/
def ComputedStyles.is_visible (s : ComputedStyles) : Bool :=
  if s.display = "none" then false
  else if s.visibility = "hidden" then false
  else
    match parseDecimal? s.opacity with
    | some q => if q ≤ 0 then false else true
    | none => true

/-- The visibility computation inlined in `DOMExtractor._process_node`
(lines 278-283): start from `True`, clear it if styles exist and say
invisible, clear it if bounds exist with non-positive width or height. -/
def computeIsVisible (styles : Option ComputedStyles) (bounds : Option DOMRect) :
    Bool :=
  let v0 := true
  let v1 :=
    match styles with
    | some s => if ¬ s.is_visible then false else v0
    | none => v0
  match bounds with
  | some b => if b.width ≤ 0 ∨ b.height ≤ 0 then false else v1
  | none => v1

/-! ## Claim C1 -/

/-- C1 counterexample: the claim says any `ActionResult` with a non-null
`success` and `is_done = false` is rejected at construction; but the
validator accepts `success = some false` with `is_done = false`. -/
theorem c1_nonnull_success_not_rejected :
    (ActionResult.validate_success_requires_done
      { is_done := false, success := some false }).isOk = true := by
  decide

/-- C1 (amended): construction of an `ActionResult` succeeds exactly when it
does not set `success` to `True` while leaving `is_done` false; in
particular `success = some true` with `is_done = false` is rejected, while
`success = some false` is accepted regardless of `is_done`. -/
theorem c1_validator_accepts_iff (r : ActionResult) :
    (ActionResult.validate_success_requires_done r).isOk = true ↔
      ¬(r.success = some true ∧ r.is_done = false) := by
  unfold ActionResult.validate_success_requires_done
  by_cases h : r.success = some true ∧ r.is_done = false
  · rw [if_pos h]
    constructor
    · intro hok; exact absurd hok (by decide)
    · intro hcontra; exact absurd h hcontra
  · rw [if_neg h]
    constructor
    · intro _; exact h
    · intro _; rfl

/-! ## Claim C5 -/

/-- C5: a processed node's computed visibility is false exactly when its
styles say display none, visibility hidden, or opacity parsing to a number
≤ 0, or its bounds exist with non-positive width or height; in every other
case (including absent styles or absent bounds) the node is visible. -/
theorem c5_visibility_characterisation (styles : Option ComputedStyles)
    (bounds : Option DOMRect) :
    computeIsVisible styles bounds = false ↔
      ((∃ s, styles = some s ∧
          (s.display = "none" ∨ s.visibility = "hidden" ∨
            ∃ q, parseDecimal? s.opacity = some q ∧ q ≤ 0)) ∨
       (∃ b, bounds = some b ∧ (b.width ≤ 0 ∨ b.height ≤ 0))) := by
  have styleChar : ∀ s : ComputedStyles, s.is_visible = false ↔
      (s.display = "none" ∨ s.visibility = "hidden" ∨
        ∃ q, parseDecimal? s.opacity = some q ∧ q ≤ 0) := by
    intro s
    unfold ComputedStyles.is_visible
    by_cases hd : s.display = "none"
    · simp [hd]
    · by_cases hv : s.visibility = "hidden"
      · simp [hd, hv]
      · cases hq : parseDecimal? s.opacity with
        | none => simp [hd, hv, hq]
        | some q =>
          by_cases hle : q ≤ 0
          · simp [hd, hv, hq, hle]
          · simp [hd, hv, hq, hle]
  constructor
  · intro hfalse
    by_cases hbdeg : ∃ b, bounds = some b ∧ (b.width ≤ 0 ∨ b.height ≤ 0)
    · exact Or.inr hbdeg
    · left
      cases styles with
      | none =>
        exfalso
        unfold computeIsVisible at hfalse
        cases bounds with
        | none => simp at hfalse
        | some b =>
          by_cases hb : b.width ≤ 0 ∨ b.height ≤ 0
          · exact hbdeg ⟨b, rfl, hb⟩
          · simp [hb] at hfalse
      | some s =>
        refine ⟨s, rfl, (styleChar s).mp ?_⟩
        unfold computeIsVisible at hfalse
        cases bounds with
        | none =>
          by_cases hsv : s.is_visible
          · simp [hsv] at hfalse
          · simpa using hsv
        | some b =>
          by_cases hb : b.width ≤ 0 ∨ b.height ≤ 0
          · exact absurd ⟨b, rfl, hb⟩ hbdeg
          · by_cases hsv : s.is_visible
            · simp [hb, hsv] at hfalse
            · simpa using hsv
  · intro hR
    unfold computeIsVisible
    rcases hR with ⟨s, hseq, hdisj⟩ | ⟨b, hbeq, hdeg⟩
    · subst hseq
      have hsv : s.is_visible = false := (styleChar s).mpr hdisj
      cases bounds with
      | none => simp [hsv]
      | some b =>
        by_cases hb : b.width ≤ 0 ∨ b.height ≤ 0 <;> simp [hsv, hb]
    · subst hbeq
      simp [hdeg]

/-! ## `dom/views.py` and `dom/extractor.py`: node model and tree builder -/

/-- DOM node types (`NodeType` in `dom/views.py`). -/
inductive NodeType where
  | ELEMENT_NODE
  | TEXT_NODE
  | CDATA_SECTION_NODE
  | PROCESSING_INSTRUCTION_NODE
  | COMMENT_NODE
  | DOCUMENT_NODE
  | DOCUMENT_TYPE_NODE
  | DOCUMENT_FRAGMENT_NODE
deriving Repr, DecidableEq

/-- `NodeType(node_type_value)` with the `except ValueError` fallback to
`ELEMENT_NODE` used in `_process_node`. -/
def NodeType.ofValue (v : Nat) : NodeType :=
  match v with
  | 1 => .ELEMENT_NODE
  | 3 => .TEXT_NODE
  | 4 => .CDATA_SECTION_NODE
  | 7 => .PROCESSING_INSTRUCTION_NODE
  | 8 => .COMMENT_NODE
  | 9 => .DOCUMENT_NODE
  | 10 => .DOCUMENT_TYPE_NODE
  | 11 => .DOCUMENT_FRAGMENT_NODE
  | _ => .ELEMENT_NODE

/-- Accessibility information (`AccessibilityInfo`); property values (`Any`)
are modelled as strings. -/
structure AXEntry where
  role : Option String := none
  name : Option String := none
  description : Option String := none
  properties : List (String × String) := []
deriving Repr, DecidableEq

/-- One entry of the extractor's snapshot lookup table
(`backendId -> {bounds, styles}`). -/
structure SnapshotEntry where
  bounds : Option DOMRect := none
  styles : Option ComputedStyles := none
deriving Repr, DecidableEq

/-- A raw CDP DOM-tree node as consumed by `_process_node`: the dict keys the
code reads, with `None` standing for an absent key. -/
inductive RawNode where
  | mk (nodeId : Option Nat) (backendNodeId : Option Nat) (nodeTypeValue : Nat)
      (nodeName : String) (nodeValue : Option String) (attrsList : List String)
      (isScrollable : Bool) (frameId : Option String)
      (shadowRootType : Option String)
      (children : List RawNode) (contentDocument : Option RawNode)
      (shadowRoots : List RawNode)

/-- The attribute-flattening loop of `_process_node`: consecutive
name/value pairs, a trailing odd entry dropped. -/
def flattenAttrs : List String → List (String × String)
  | k :: v :: rest => (k, v) :: flattenAttrs rest
  | _ => []

/-- Representation of a DOM node (`DOMNode` in `dom/views.py`). -/
structure DOMNode where
  node_id : Nat
  backend_node_id : Nat
  node_type : NodeType
  tag_name : String
  node_value : Option String := none
  text_content : String := ""
  attributes : List (String × String) := []
  bounds : Option DOMRect := none
  computed_styles : Option ComputedStyles := none
  accessibility : Option AXEntry := none
  is_visible : Bool := true
  is_clickable : Bool := false
  is_editable : Bool := false
  is_scrollable : Bool := false
  parent_id : Option Nat := none
  children_ids : List Nat := []
  depth : Nat := 0
  frame_id : Option String := none
  content_document_id : Option Nat := none
  shadow_root_type : Option String := none
  shadow_root_id : Option Nat := none
  index : Option Nat := none
deriving Repr, DecidableEq

/-- `DOMNode.is_element`. -/
def DOMNode.is_element (n : DOMNode) : Bool :=
  decide (n.node_type = NodeType.ELEMENT_NODE)

/-- `DOMNode.is_text`. -/
def DOMNode.is_text (n : DOMNode) : Bool :=
  decide (n.node_type = NodeType.TEXT_NODE)

/-- Python truthiness of an optional string attribute value. -/
def strTruthy : Option String → Bool
  | some s => s ≠ ""
  | none => false

/-- The fixed interactive-tag set of `DOMNode.is_interactive`. -/
def interactiveTags : List String :=
  ["a", "button", "input", "select", "textarea", "label", "details", "summary", "dialog"]

/-- The interactive `role` attribute values accepted by
`DOMNode.is_interactive`. -/
def interactiveAttributeRoles : List String :=
  ["button", "link", "menuitem", "option", "tab", "checkbox", "radio", "textbox", "combobox"]

/-- `DOMNode.is_interactive`: non-elements are never interactive; otherwise
true for a recognized interactive tag, a truthy `onclick` or `tabindex`
attribute, `contenteditable="true"`, or an interactive `role` attribute. -/
def DOMNode.is_interactive (n : DOMNode) : Bool :=
  if ¬ n.is_element then false
  else if interactiveTags.contains n.tag_name.toLower then true
  else if strTruthy (dictGet n.attributes "onclick") then true
  else if strTruthy (dictGet n.attributes "tabindex") then true
  else if dictGet n.attributes "contenteditable" = some "true" then true
  else if (match dictGet n.attributes "role" with
           | some r => interactiveAttributeRoles.contains r
           | none => false) then true
  else false

/-- Selector-map entry (`DOMNode.to_selector_info`). -/
structure SelectorInfo where
  backend_node_id : Nat
  tag_name : String
  attributes : List (String × String)
  bounds : Option DOMRect
deriving Repr, DecidableEq

/-- `DOMNode.to_selector_info`. -/
def DOMNode.to_selector_info (n : DOMNode) : SelectorInfo :=
  { backend_node_id := n.backend_node_id, tag_name := n.tag_name,
    attributes := n.attributes, bounds := n.bounds }

/-- Mutable state of a `DOMExtractor` during one extraction pass:
`_nodes`, `_selector_map` and `_interactive_index` as initialised in
`DOMExtractor.__init__` (the counter starts at 1). -/
structure ExtractorState where
  nodes : List (Nat × DOMNode) := []
  selector_map : List (Nat × SelectorInfo) := []
  interactive_index : Nat := 1
deriving Repr, DecidableEq

/-- The freshly initialised extractor state. -/
def extractorInit : ExtractorState := {}

/-- The text-aggregation loop at the end of `_process_node`: concatenate the
text of immediate text-node children and the already-aggregated non-empty
text of child elements, space-separated and trimmed. -/
def aggregateText (nodes : List (Nat × DOMNode)) (childIds : List Nat) : String :=
  let parts := childIds.foldr
    (fun cid acc =>
      match dictGet nodes cid with
      | some c =>
        if c.is_text then c.text_content :: acc
        else if c.text_content ≠ "" then c.text_content :: acc
        else acc
      | none => acc) []
  (String.intercalate " " parts).trim

/-- The per-node construction in `_process_node` up to (and excluding) the
interactivity check: resolve the node type, flatten attributes, merge
snapshot bounds/styles and accessibility data, compute visibility, and set
the text content of text nodes. -/
def buildBaseNode (snap : Nat → Option SnapshotEntry) (ax : Nat → Option AXEntry)
    (node_id backend_node_id typeVal : Nat) (nodeName : String)
    (nodeValue : Option String) (attrsList : List String)
    (parentId : Option Nat) (depth : Nat) (frameId : Option String) : DOMNode :=
  let node_type := NodeType.ofValue typeVal
  let attributes := flattenAttrs attrsList
  let snapData := snap backend_node_id
  let bounds := snapData.bind (fun e => e.bounds)
  let styles := snapData.bind (fun e => e.styles)
  let accessibility := ax backend_node_id
  let is_visible := computeIsVisible styles bounds
  let dn : DOMNode :=
    { node_id := node_id, backend_node_id := backend_node_id,
      node_type := node_type, tag_name := nodeName.toLower, node_value := nodeValue,
      attributes := attributes, bounds := bounds, computed_styles := styles,
      accessibility := accessibility, is_visible := is_visible,
      parent_id := parentId, depth := depth, frame_id := frameId }
  if node_type = NodeType.TEXT_NODE then { dn with text_content := nodeValue.getD "" } else dn

/-- The interactivity check of `_process_node`: if the node is an element,
interactive and visible, assign the next sequential interaction index,
record a selector-map entry under that index, bump the counter and mark the
node clickable. -/
def indexAssign (dn : DOMNode) (st : ExtractorState) : DOMNode × ExtractorState :=
  if dn.is_element ∧ dn.is_interactive ∧ dn.is_visible then
    let idx := st.interactive_index
    let dn2 := { dn with index := some idx, is_clickable := true }
    (dn2, { st with selector_map := dictSet st.selector_map idx dn2.to_selector_info,
                    interactive_index := idx + 1 })
  else (dn, st)

/-- The editable/scrollable flags of `_process_node`. -/
def applyEditableScrollable (dn : DOMNode) (scrollable : Bool) : DOMNode :=
  let tag := dn.tag_name.toLower
  let dn2 := if tag = "input" ∨ tag = "textarea" ∨
      dictGet dn.attributes "contenteditable" = some "true"
    then { dn with is_editable := true } else dn
  if scrollable then { dn2 with is_scrollable := true } else dn2

/-- The `shadow_root.get("shadowRootType")` read used by the shadow-root
loop of `_process_node`. -/
def RawNode.shadowRootTypeOf : RawNode → Option String
  | .mk _ _ _ _ _ _ _ _ srType _ _ _ => srType

mutual

/-- `DOMExtractor._process_node`: process one raw node and (recursively) its
children, nested document and shadow roots, threading the extractor state.
Python mutates the stored node object in place after recursion; this is
modelled by re-storing the finished node under its id at the end. -/
def processNode (snap : Nat → Option SnapshotEntry) (ax : Nat → Option AXEntry)
    (node : RawNode) (parentId : Option Nat) (depth : Nat) (st : ExtractorState) :
    Option DOMNode × ExtractorState :=
  match node with
  | .mk nodeId? backendId? typeVal nodeName nodeValue attrsList scrollable frameId
      _srType children contentDoc shadowRoots =>
    match nodeId?, backendId? with
    | some node_id, some backend_node_id =>
      let dn0 := buildBaseNode snap ax node_id backend_node_id typeVal nodeName
        nodeValue attrsList parentId depth frameId
      let p1 := indexAssign dn0 st
      let dn1 := p1.1
      let st1 := p1.2
      let dn2 := applyEditableScrollable dn1 scrollable
      let st2 := { st1 with nodes := dictSet st1.nodes node_id dn2 }
      let p3 := processChildren snap ax children node_id depth st2
      let children_ids := p3.1
      let st3 := p3.2
      let dn3 := { dn2 with children_ids := children_ids }
      let p4 := processContentDoc snap ax contentDoc node_id depth dn3 st3
      let dn4 := p4.1
      let st4 := p4.2
      let p5 := processShadowRoots snap ax shadowRoots node_id depth dn4 st4
      let dn5 := p5.1
      let st5 := p5.2
      let dn6 := if dn5.is_element
        then { dn5 with text_content := aggregateText st5.nodes children_ids }
        else dn5
      let st6 := { st5 with nodes := dictSet st5.nodes node_id dn6 }
      (some dn6, st6)
    | _, _ => (none, st)
termination_by sizeOf node

/-- The `for child in node.get("children", [])` loop of `_process_node`,
collecting the ids of successfully processed children in order. -/
def processChildren (snap : Nat → Option SnapshotEntry) (ax : Nat → Option AXEntry)
    (children : List RawNode) (parentId : Nat) (depth : Nat) (st : ExtractorState) :
    List Nat × ExtractorState :=
  match children with
  | [] => ([], st)
  | c :: rest =>
    let p := processNode snap ax c (some parentId) (depth + 1) st
    let q := processChildren snap ax rest parentId depth p.2
    match p.1 with
    | some d => (d.node_id :: q.1, q.2)
    | none => q
termination_by sizeOf children

/-- The `contentDocument` recursion of `_process_node` (iframes). -/
def processContentDoc (snap : Nat → Option SnapshotEntry) (ax : Nat → Option AXEntry)
    (contentDoc : Option RawNode) (parentId : Nat) (depth : Nat)
    (dn : DOMNode) (st : ExtractorState) : DOMNode × ExtractorState :=
  match contentDoc with
  | none => (dn, st)
  | some cd =>
    let p := processNode snap ax cd (some parentId) (depth + 1) st
    match p.1 with
    | some d => ({ dn with content_document_id := some d.node_id }, p.2)
    | none => (dn, p.2)
termination_by sizeOf contentDoc

/-- The `shadowRoots` loop of `_process_node`: each successfully processed
shadow root overwrites the parent's shadow-root id, and the
`shadowRootType` read off the raw shadow-root node. -/
def processShadowRoots (snap : Nat → Option SnapshotEntry) (ax : Nat → Option AXEntry)
    (roots : List RawNode) (parentId : Nat) (depth : Nat)
    (dn : DOMNode) (st : ExtractorState) : DOMNode × ExtractorState :=
  match roots with
  | [] => (dn, st)
  | r :: rest =>
    let p := processNode snap ax r (some parentId) (depth + 1) st
    let dn2 := match p.1 with
      | some sdn =>
        { dn with shadow_root_id := some sdn.node_id,
                  shadow_root_type := r.shadowRootTypeOf }
      | none => dn
    processShadowRoots snap ax rest parentId depth dn2 p.2
termination_by sizeOf roots

end

/-! ## Claim C2: invariants of the extraction pass -/

/-- Index soundness of one node: an assigned interaction index implies the
node is an element, visible and interactive. -/
def SoundNode (n : DOMNode) : Prop :=
  n.index.isSome = true →
    (n.is_element = true ∧ n.is_visible = true ∧ n.is_interactive = true)

/-- Invariant of the extractor state: the selector map's keys in insertion
(= assignment) order are exactly 1, 2, ..., its length; the counter sits one
past the last assigned index; and every stored node is sound. -/
def ExtractorInv (st : ExtractorState) : Prop :=
  st.selector_map.map Prod.fst = List.range' 1 st.selector_map.length ∧
  st.interactive_index = st.selector_map.length + 1 ∧
  ∀ p ∈ st.nodes, SoundNode p.2

theorem extractorInit_inv : ExtractorInv extractorInit := by
  refine ⟨rfl, rfl, ?_⟩
  intro p hp
  cases hp

theorem sound_congr {dn dn' : DOMNode} (hidx : dn'.index = dn.index)
    (hel : dn'.is_element = dn.is_element) (hvis : dn'.is_visible = dn.is_visible)
    (hint : dn'.is_interactive = dn.is_interactive) (h : SoundNode dn) :
    SoundNode dn' := by
  intro hs
  rw [hidx] at hs
  rw [hel, hvis, hint]
  exact h hs

theorem buildBaseNode_index (snap : Nat → Option SnapshotEntry)
    (ax : Nat → Option AXEntry) (a b c : Nat) (nm : String) (nv : Option String)
    (al : List String) (pid : Option Nat) (d : Nat) (fid : Option String) :
    (buildBaseNode snap ax a b c nm nv al pid d fid).index = none := by
  unfold buildBaseNode
  dsimp only
  split <;> rfl

theorem indexAssign_inv {dn : DOMNode} {st : ExtractorState}
    (hInv : ExtractorInv st) (hidx : dn.index = none) :
    ExtractorInv (indexAssign dn st).2 ∧ SoundNode (indexAssign dn st).1 := by
  obtain ⟨hmap, hcount, hnodes⟩ := hInv
  unfold indexAssign
  by_cases hguard : dn.is_element = true ∧ dn.is_interactive = true ∧ dn.is_visible = true
  · rw [if_pos hguard]
    dsimp only
    have hfresh : ∀ p ∈ st.selector_map, p.1 ≠ st.interactive_index := by
      intro p hp
      have hmem : p.1 ∈ st.selector_map.map Prod.fst := List.mem_map_of_mem Prod.fst hp
      rw [hmap] at hmem
      have := (List.mem_range'_1).mp hmem
      omega
    refine ⟨⟨?_, ?_, ?_⟩, ?_⟩
    · rw [dictSet_eq_append hfresh, List.map_append, List.length_append, hmap]
      simp only [List.map_cons, List.map_nil, List.length_cons, List.length_nil,
        List.length_range']
      rw [List.range'_concat 1 st.selector_map.length]
      have hii : st.interactive_index = 1 + 1 * st.selector_map.length := by omega
      rw [hii]
    · rw [dictSet_eq_append hfresh, List.length_append]
      simp only [List.length_cons, List.length_nil]
      omega
    · exact hnodes
    · intro _
      refine ⟨?_, ?_, ?_⟩
      · show dn.is_element = true
        exact hguard.1
      · show dn.is_visible = true
        exact hguard.2.2
      · show dn.is_interactive = true
        exact hguard.2.1
  · rw [if_neg hguard]
    refine ⟨⟨hmap, hcount, hnodes⟩, ?_⟩
    intro hs
    rw [hidx] at hs
    cases hs

theorem storeNode_inv {st : ExtractorState} {k : Nat} {v : DOMNode}
    (hInv : ExtractorInv st) (hv : SoundNode v) :
    ExtractorInv { st with nodes := dictSet st.nodes k v } := by
  refine ⟨hInv.1, hInv.2.1, ?_⟩
  intro p hp
  rcases mem_dictSet hp with h | h
  · exact hInv.2.2 p h
  · rw [h]
    exact hv

theorem applyEditableScrollable_sound {dn : DOMNode} {b : Bool}
    (h : SoundNode dn) : SoundNode (applyEditableScrollable dn b) := by
  unfold applyEditableScrollable
  dsimp only
  split <;> split <;> exact sound_congr rfl rfl rfl rfl h

set_option maxHeartbeats 2000000 in
theorem extractorWalk_inv (snap : Nat → Option SnapshotEntry)
    (ax : Nat → Option AXEntry) :
    ∀ (node : RawNode) (parentId : Option Nat) (depth : Nat) (st : ExtractorState),
      ExtractorInv st → ExtractorInv (processNode snap ax node parentId depth st).2 := by
  refine processNode.induct snap ax
    (fun node parentId depth st =>
      ExtractorInv st → ExtractorInv (processNode snap ax node parentId depth st).2)
    (fun roots parentId depth _dn st =>
      ExtractorInv st → ∀ dn, SoundNode dn →
        ExtractorInv (processShadowRoots snap ax roots parentId depth dn st).2 ∧
        SoundNode (processShadowRoots snap ax roots parentId depth dn st).1)
    (fun contentDoc parentId depth _dn st =>
      ExtractorInv st → ∀ dn, SoundNode dn →
        ExtractorInv (processContentDoc snap ax contentDoc parentId depth dn st).2 ∧
        SoundNode (processContentDoc snap ax contentDoc parentId depth dn st).1)
    (fun children parentId depth st =>
      ExtractorInv st → ExtractorInv (processChildren snap ax children parentId depth st).2)
    ?_ ?_ ?_ ?_ ?_ ?_ ?_ ?_ ?_ ?_
  · -- processNode, main constructor case
    intro parentId depth st typeVal nodeName nodeValue attrsList scrollable frameId
      srType children contentDoc shadowRoots node_id backend_node_id
    intro dn0 p1 dn1 st1 dn2 st2 p3 children_ids st3 dn3 p4 dn4 st4
    intro ih4 _ih4b ih3 _ih3b ih2
    intro hInv
    have h1 := indexAssign_inv hInv (buildBaseNode_index snap ax node_id
      backend_node_id typeVal nodeName nodeValue attrsList parentId depth frameId)
    have h2 : SoundNode dn2 := applyEditableScrollable_sound h1.2
    have h3 : ExtractorInv st2 := storeNode_inv h1.1 h2
    have h4 : ExtractorInv st3 := ih4 h3
    have h5 : SoundNode dn3 := sound_congr rfl rfl rfl rfl h2
    have h6 := ih3 h4 dn3 h5
    have h7 := ih2 h6.1 p4.1 h6.2
    have h8 : SoundNode (if (processShadowRoots snap ax shadowRoots node_id depth
          dn4 st4).1.is_element = true
        then { (processShadowRoots snap ax shadowRoots node_id depth dn4 st4).1 with
               text_content := aggregateText (processShadowRoots snap ax shadowRoots
                 node_id depth dn4 st4).2.nodes children_ids }
        else (processShadowRoots snap ax shadowRoots node_id depth dn4 st4).1) := by
      split
      · exact sound_congr rfl rfl rfl rfl h7.2
      · exact h7.2
    unfold processNode
    exact storeNode_inv h7.1 h8
  · -- processNode, missing node id or backend id
    intro parentId depth st typeVal nodeName nodeValue attrsList scrollable frameId
      srType children contentDoc shadowRoots nodeId? backendId? hcontra hInv
    cases nodeId? with
    | none =>
      cases backendId? with
      | none => unfold processNode; exact hInv
      | some b => unfold processNode; exact hInv
    | some a =>
      cases backendId? with
      | none => unfold processNode; exact hInv
      | some b => exact (hcontra a b rfl rfl).elim
  · -- processShadowRoots, nil
    intro parentId depth dn st hInv dn' hdn'
    unfold processShadowRoots
    exact ⟨hInv, hdn'⟩
  · -- processShadowRoots, cons
    intro parentId depth dn st c rest p dn2 ih1 ihrest hInv dn' hdn'
    unfold processShadowRoots
    dsimp only
    have hp := ih1 hInv
    cases hq : (processNode snap ax c (some parentId) (depth + 1) st).1 with
    | none =>
      exact ihrest hp dn' hdn'
    | some sdn =>
      exact ihrest hp _ (sound_congr rfl rfl rfl rfl hdn')
  · -- processContentDoc, none
    intro parentId depth dn st hInv dn' hdn'
    unfold processContentDoc
    exact ⟨hInv, hdn'⟩
  · -- processContentDoc, some, child processed
    intro parentId depth dn st cd p c hc ih1 hInv dn' hdn'
    unfold processContentDoc
    dsimp only
    have hp := ih1 hInv
    cases hq : (processNode snap ax cd (some parentId) (depth + 1) st).1 with
    | none =>
      exact ⟨hp, hdn'⟩
    | some d =>
      exact ⟨hp, sound_congr rfl rfl rfl rfl hdn'⟩
  · -- processContentDoc, some, child dropped
    intro parentId depth dn st cd p hc ih1 hInv dn' hdn'
    unfold processContentDoc
    dsimp only
    have hp := ih1 hInv
    cases hq : (processNode snap ax cd (some parentId) (depth + 1) st).1 with
    | none =>
      exact ⟨hp, hdn'⟩
    | some d =>
      exact ⟨hp, sound_congr rfl rfl rfl rfl hdn'⟩
  · -- processChildren, nil
    intro parentId depth st hInv
    unfold processChildren
    exact hInv
  · -- processChildren, cons, child processed
    intro parentId depth st c rest p d hd ih1 ihrest hInv
    unfold processChildren
    dsimp only
    have hp := ih1 hInv
    have hq := ihrest hp
    cases hr : (processNode snap ax c (some parentId) (depth + 1) st).1 with
    | none =>
      exact hq
    | some d2 =>
      exact hq
  · -- processChildren, cons, child dropped
    intro parentId depth st c rest p hd ih1 ihrest hInv
    unfold processChildren
    dsimp only
    have hp := ih1 hInv
    have hq := ihrest hp
    cases hr : (processNode snap ax c (some parentId) (depth + 1) st).1 with
    | none =>
      exact hq
    | some d2 =>
      exact hq

/-- C2: over any raw DOM tree and lookup data, the interaction indices
assigned during one extraction pass (the keys of the selector map, listed in
assignment order, which is the order nodes are first visited by the
depth-first walk) are exactly 1, 2, ..., n — hence unique, starting at 1 and
strictly increasing in first-visit order — and every stored node carrying a
non-null index is an element node that is visible and interactive. -/
theorem c2_interaction_indices (snap : Nat → Option SnapshotEntry)
    (ax : Nat → Option AXEntry) (root : RawNode) :
    (processNode snap ax root none 0 extractorInit).2.selector_map.map Prod.fst =
      List.range' 1
        (processNode snap ax root none 0 extractorInit).2.selector_map.length ∧
    ∀ p ∈ (processNode snap ax root none 0 extractorInit).2.nodes,
      p.2.index.isSome = true →
        p.2.is_element = true ∧ p.2.is_visible = true ∧ p.2.is_interactive = true := by
  have h := extractorWalk_inv snap ax root none 0 extractorInit extractorInit_inv
  exact ⟨h.1, h.2.2⟩

/-! ## `dom/serializer.py`: serialization of a DOM state -/

/-- The accessibility sub-dict stored by `DOMExtractor._node_to_dict`
(`{role, name}`). -/
structure AXPair where
  role : Option String := none
  name : Option String := none
deriving Repr, DecidableEq

/-- One node dict as produced by `DOMExtractor._node_to_dict` and consumed by
the serializer. Every key the serializer reads is present in the dict, so
the `.get` defaults of the source never fire; `is_new` is the one key
`_node_to_dict` does not write, modelled with the serializer's `False`
default. -/
structure NodeData where
  node_id : Nat := 0
  backend_node_id : Nat := 0
  tag_name : String := ""
  text : String := ""
  attributes : List (String × String) := []
  bounds : Option DOMRect := none
  is_visible : Bool := false
  is_clickable : Bool := false
  is_editable : Bool := false
  index : Option Nat := none
  depth : Nat := 0
  accessibility : Option AXPair := none
  is_new : Bool := false
deriving Repr, DecidableEq

/-- The slice of `DOMState` (`dom/views.py`) that `DOMSerializer` reads. -/
structure DOMStateModel where
  root_node_id : Nat := 0
  nodes : List (Nat × NodeData) := []
  interactive_elements : List (Nat × NodeData) := []
  selector_map : List (Nat × SelectorInfo) := []
  url : String := ""
  title : String := ""
  viewport_width : ℚ := 1280
  viewport_height : ℚ := 720
  scroll_x : ℚ := 0
  scroll_y : ℚ := 0
deriving Repr, DecidableEq

/-- Output of the serializer (`SerializedDOM` in `dom/views.py`); these are
all of its fields. -/
structure SerializedDOM where
  llm_representation : String := ""
  total_elements : Nat := 0
  interactive_elements : Nat := 0
  visible_elements : Nat := 0
  links_count : Nat := 0
  iframes_count : Nat := 0
  scroll_containers : Nat := 0
  has_content_above : Bool := false
  has_content_below : Bool := false
  pages_above : ℚ := 0
  pages_below : ℚ := 0
  selector_map : List (Nat × SelectorInfo) := []
deriving Repr, DecidableEq

/-- The serializer's statistics dict. -/
structure PageStats where
  total_elements : Nat := 0
  interactive_elements : Nat := 0
  visible_elements : Nat := 0
  links_count : Nat := 0
  iframes_count : Nat := 0
  scroll_containers : Nat := 0
deriving Repr, DecidableEq

/-- `DOMSerializer._calculate_stats`: one pass over all node dicts.
(`scroll_containers` is never incremented in the source.) -/
def calculateStats (st : DOMStateModel) : PageStats :=
  st.nodes.foldl
    (fun s p =>
      let nd := p.2
      let tag := nd.tag_name.toLower
      let s := { s with total_elements := s.total_elements + 1 }
      let s := if nd.is_visible then
          { s with visible_elements := s.visible_elements + 1 } else s
      let s := if nd.index.isSome then
          { s with interactive_elements := s.interactive_elements + 1 } else s
      if tag = "a" then { s with links_count := s.links_count + 1 }
      else if tag = "iframe" ∨ tag = "frame" then
        { s with iframes_count := s.iframes_count + 1 }
      else s)
    {}

/-- `DOMSerializer._get_page_height`: the maximum of the viewport height and
the bottom edge of any node's bounds. -/
def getPageHeight (st : DOMStateModel) : ℚ :=
  st.nodes.foldl
    (fun mx p =>
      match p.2.bounds with
      | some b => max mx (b.y + b.height)
      | none => mx)
    st.viewport_height

/-- Strict lexicographic comparison on the `(bounds.y, bounds.x)` sort key of
`_get_sorted_elements` (`0` for a missing coordinate). -/
def elemSortLt (a b : NodeData) : Bool :=
  let ay := match a.bounds with | some r => r.y | none => 0
  let ax := match a.bounds with | some r => r.x | none => 0
  let yb := match b.bounds with | some r => r.y | none => 0
  let xb := match b.bounds with | some r => r.x | none => 0
  decide (ay < yb ∨ (ay = yb ∧ ax < xb))

/-- Stable insertion used by `stableSortBy`. -/
def stableInsert {α : Type} (lt : α → α → Bool) (x : α) : List α → List α
  | [] => [x]
  | y :: ys => if lt y x then y :: stableInsert lt x ys else x :: y :: ys

/-- Model of Python `sorted` with a key function: a stable sort that keeps
the original relative order of elements whose keys compare equal. -/
def stableSortBy {α : Type} (lt : α → α → Bool) : List α → List α
  | [] => []
  | x :: xs => stableInsert lt x (stableSortBy lt xs)

/-- `DOMSerializer._get_sorted_elements`: the visible interactive elements
sorted by `(bounds.y, bounds.x)`. When any such element has `bounds = None`
the source crashes on the sort key (`None.get`), an `AttributeError`,
modelled as an `Except.error`. -/
def DOMSerializer.getSortedElements (st : DOMStateModel) :
    Except String (List NodeData) :=
  let elements := (st.interactive_elements.map Prod.snd).filter
    (fun nd => nd.is_visible)
  if elements.any (fun nd => nd.bounds.isNone) then
    .error "AttributeError: NoneType object has no attribute get"
  else
    .ok (stableSortBy elemSortLt elements)

/-- A single-quote character, as used by the source's rendered attribute
syntax. -/
def sqc : String := String.singleton (Char.ofNat 39)

/-- The attribute-value truncation of `_serialize_element` (past 50
characters). -/
def truncAttrValue (v : String) : String :=
  if v.length > 50 then v.take 47 ++ "..." else v

/-- The default `include_attributes` whitelist of `DOMSerializer.__init__`. -/
def defaultIncludeAttributes : List String :=
  ["aria-label", "placeholder", "type", "role", "href", "src", "alt", "title",
   "name", "value"]

/-- `DOMSerializer._serialize_element`: render one element as an indexed tag
line, or `""` if it has no index. -/
def DOMSerializer.serializeElement (includeAttrs : List String)
    (element : NodeData) : String :=
  match element.index with
  | none => ""
  | some idx =>
    let tag := element.tag_name
    let text := element.text
    let attrs := element.attributes
    let d := element.depth
    let attrParts0 := includeAttrs.foldl
      (fun acc an =>
        match dictGet attrs an with
        | some v =>
          if v ≠ "" then acc ++ [an ++ "=" ++ sqc ++ truncAttrValue v ++ sqc]
          else acc
        | none => acc)
      []
    let attrParts :=
      match element.accessibility with
      | some axp =>
        let withRole :=
          if strTruthy axp.role ∧ dictGet attrs "role" = none then
            attrParts0 ++ ["role=" ++ sqc ++ axp.role.getD "" ++ sqc]
          else attrParts0
        if strTruthy axp.name ∧ dictGet attrs "aria-label" = none then
          withRole ++ ["aria-label=" ++ sqc ++ (axp.name.getD "").take 50 ++ sqc]
        else withRole
      | none => attrParts0
    let attrStr := if attrParts.isEmpty then ""
      else " " ++ String.intercalate " " attrParts
    let text2 := if text.length > 100 then text.take 97 ++ "..." else text
    let indent := String.mk (List.replicate (min d 5) (Char.ofNat 9))
    let star := if element.is_new then "*" else ""
    indent ++ star ++ "[" ++ toString idx ++ "]<" ++ tag ++ attrStr ++ ">" ++
      text2 ++ "</" ++ tag ++ ">"

/-- Model of Python `f"{x:.1f}"` on the exact rational value: round to one
decimal place and print. -/
def formatQ1 (q : ℚ) : String :=
  let scaled : ℤ := round (q * 10)
  let sgn := if scaled < 0 then "-" else ""
  let n := scaled.natAbs
  sgn ++ toString (n / 10) ++ "." ++ toString (n % 10)

/-- `DOMSerializer.serialize`: page markers, sorted element lines, hard
truncation past `max_length`. The second component is the method's local
`truncated` flag, which the source computes (and logs) but does not store on
the returned `SerializedDOM` — that type has no such field. -/
def DOMSerializer.serialize (st : DOMStateModel) (max_length : Nat)
    (includeAttrs : List String) : Except String (SerializedDOM × Bool) :=
  let stats := calculateStats st
  let scroll_y := st.scroll_y
  let viewport_height := st.viewport_height
  let page_height := getPageHeight st
  let pages_above := if viewport_height > 0 then scroll_y / viewport_height else 0
  let pages_below := if viewport_height > 0 then
      max 0 ((page_height - scroll_y - viewport_height) / viewport_height) else 0
  let has_content_above := pages_above > 1/10
  let has_content_below := pages_below > 1/10
  let startLine := if has_content_above then
      "... " ++ formatQ1 pages_above ++ " pages above ..."
    else "[Start of page]"
  match DOMSerializer.getSortedElements st with
  | .error e => .error e
  | .ok elements =>
    let elemLines := (elements.map (DOMSerializer.serializeElement includeAttrs)).filter
      (fun l => l ≠ "")
    let lines := [startLine] ++ elemLines ++
      (if ¬ has_content_below then ["[End of page]"] else [])
    let representation := String.intercalate "\n" lines
    let truncated := false
    let rt : String × Bool :=
      if representation.length > max_length then
        (representation.take max_length, true)
      else (representation, truncated)
    .ok ({ llm_representation := rt.1,
           total_elements := stats.total_elements,
           interactive_elements := stats.interactive_elements,
           visible_elements := stats.visible_elements,
           links_count := stats.links_count,
           iframes_count := stats.iframes_count,
           scroll_containers := stats.scroll_containers,
           has_content_above := has_content_above,
           has_content_below := has_content_below,
           pages_above := pages_above,
           pages_below := pages_below,
           selector_map := st.selector_map }, rt.2)

/-! ## Claims C4 and C9 -/

/-- A DOM state whose serialized text (29 characters) exceeds a configured
maximum length of 5. -/
def c4FailingState : DOMStateModel := {}

/-- C4 (evaluation at the failing input): with `max_length = 5` the unbounded
text (29 characters) exceeds the maximum, the returned text is hard-cut to
exactly 5 characters, and the method's local `truncated` flag is `true`; yet
the returned `SerializedDOM` — spelled out in full below — has no field
recording truncation (the `SerializedDOM` type carries none), so the flag is
dropped. -/
theorem c4_truncated_flag_dropped :
    DOMSerializer.serialize c4FailingState 40000 defaultIncludeAttributes =
        .ok ({ llm_representation := "[Start of page]\n[End of page]" }, false) ∧
    DOMSerializer.serialize c4FailingState 5 defaultIncludeAttributes =
        .ok ({ llm_representation := "[Star" }, true) ∧
    ("[Start of page]\n[End of page]" : String).length = 29 ∧
    ("[Star" : String).length = 5 := by
  refine ⟨?_, ?_, by decide, by decide⟩ <;>
    · norm_num [DOMSerializer.serialize, DOMSerializer.getSortedElements,
        c4FailingState, getPageHeight, calculateStats]
      decide

/-- C9: whenever the serializer succeeds on a state with positive viewport
height, the returned `pages_above` equals `scroll_y / viewport_height`,
`pages_below` equals
`max 0 ((page_height - scroll_y - viewport_height) / viewport_height)` with
`page_height` the maximum of the viewport height and any node's bottom edge
(`getPageHeight`), and the `has_content_above`/`has_content_below` flags are
set exactly when the corresponding fraction exceeds 0.1. -/
theorem c9_page_fractions (st : DOMStateModel) (maxLen : Nat)
    (attrs : List String) (hvh : 0 < st.viewport_height) (out : SerializedDOM)
    (tr : Bool)
    (hok : DOMSerializer.serialize st maxLen attrs = .ok (out, tr)) :
    out.pages_above = st.scroll_y / st.viewport_height ∧
    out.pages_below =
      max 0 ((getPageHeight st - st.scroll_y - st.viewport_height) /
        st.viewport_height) ∧
    (out.has_content_above = true ↔ out.pages_above > 1/10) ∧
    (out.has_content_below = true ↔ out.pages_below > 1/10) := by
  unfold DOMSerializer.serialize at hok
  cases hs : DOMSerializer.getSortedElements st with
  | error e =>
    rw [hs] at hok
    cases hok
  | ok elements =>
    rw [hs] at hok
    dsimp only at hok
    injection hok with hpair
    have hout : out =
        { llm_representation := _, total_elements := _, interactive_elements := _,
          visible_elements := _, links_count := _, iframes_count := _,
          scroll_containers := _, has_content_above := _, has_content_below := _,
          pages_above := _, pages_below := _, selector_map := _ } :=
      (congrArg Prod.fst hpair).symm
    have hvh' : st.viewport_height > 0 := hvh
    rw [hout]
    dsimp only
    refine ⟨?_, ?_, ?_, ?_⟩
    · rw [if_pos hvh']
    · rw [if_pos hvh']
    · constructor
      · exact of_decide_eq_true
      · exact decide_eq_true
    · constructor
      · exact of_decide_eq_true
      · exact decide_eq_true

/-- The spec's worked example for the page-fraction computation: scrollY=800,
viewportHeight=720 and one laid-out node whose bottom edge makes the page
height estimate 2000. -/
def c9ExampleState : DOMStateModel :=
  { scroll_y := 800, viewport_height := 720,
    nodes := [(1, { bounds := some { x := 0, y := 1900, width := 100, height := 100 } })] }

/-- The serializer's output at `c9ExampleState`. -/
def c9ExampleOut : SerializedDOM :=
  match DOMSerializer.serialize c9ExampleState 40000 defaultIncludeAttributes with
  | .ok p => p.1
  | .error _ => {}

/-- The serializer's local truncation flag at `c9ExampleState`. -/
def c9ExampleTr : Bool :=
  match DOMSerializer.serialize c9ExampleState 40000 defaultIncludeAttributes with
  | .ok p => p.2
  | .error _ => false

/-- C9 witness: at the spec's example (scrollY=800, viewportHeight=720,
pageHeight=2000) the hypotheses of `c9_page_fractions` hold, and the
conclusions give pagesAbove = 10/9 ≈ 1.11 and pagesBelow = 2/3 ≈ 0.67 with
both content flags set. -/
theorem c9_page_fractions_witness :
    (0 : ℚ) < c9ExampleState.viewport_height ∧
    (c9ExampleOut.pages_above =
        c9ExampleState.scroll_y / c9ExampleState.viewport_height ∧
      c9ExampleOut.pages_below =
        max 0 ((getPageHeight c9ExampleState - c9ExampleState.scroll_y -
          c9ExampleState.viewport_height) / c9ExampleState.viewport_height) ∧
      (c9ExampleOut.has_content_above = true ↔ c9ExampleOut.pages_above > 1/10) ∧
      (c9ExampleOut.has_content_below = true ↔ c9ExampleOut.pages_below > 1/10)) ∧
    c9ExampleOut.pages_above = 10/9 ∧
    c9ExampleOut.pages_below = 2/3 ∧
    |c9ExampleOut.pages_above - 111/100| < 1/100 ∧
    |c9ExampleOut.pages_below - 67/100| < 1/100 ∧
    c9ExampleOut.has_content_above = true ∧
    c9ExampleOut.has_content_below = true := by
  have hvh : (0:ℚ) < c9ExampleState.viewport_height := by norm_num [c9ExampleState]
  have hok : DOMSerializer.serialize c9ExampleState 40000 defaultIncludeAttributes =
      .ok (c9ExampleOut, c9ExampleTr) := rfl
  have hmain := c9_page_fractions c9ExampleState 40000 defaultIncludeAttributes hvh
    c9ExampleOut c9ExampleTr hok
  have hph : getPageHeight c9ExampleState = 2000 := by
    norm_num [getPageHeight, c9ExampleState]
  have hpa : c9ExampleOut.pages_above = 10/9 := by
    rw [hmain.1]
    norm_num [c9ExampleState]
  have hpb : c9ExampleOut.pages_below = 2/3 := by
    rw [hmain.2.1, hph]
    norm_num [c9ExampleState]
  refine ⟨hvh, hmain, hpa, hpb, ?_, ?_, ?_, ?_⟩
  · rw [hpa, abs_lt]; constructor <;> norm_num
  · rw [hpb, abs_lt]; constructor <;> norm_num
  · exact hmain.2.2.1.mpr (by rw [hpa]; norm_num)
  · exact hmain.2.2.2.mpr (by rw [hpb]; norm_num)

/-! ## `browser/views.py` and `browser/session.py`: marking new elements -/

/-- The slice of `InteractiveElement` (`browser/views.py`) read by
`mark_new_elements`: the index and the `is_new` flag (its pydantic default
is `False`). -/
structure InteractiveElementM where
  index : Nat
  tag_name : String := ""
  text : String := ""
  is_new : Bool := false
deriving Repr, DecidableEq

/-- The slice of `BrowserState` (`browser/views.py`) used by the
new-element marking path. -/
structure BrowserStateM where
  url : String := ""
  title : String := ""
  elements : List InteractiveElementM := []
deriving Repr, DecidableEq

/-- `BrowserState.mark_new_elements`: no-op when there is no previous state
or the URL changed; otherwise set each element's `is_new` to whether its
index is absent from the previous state's element indices. -/
def BrowserStateM.mark_new_elements (s : BrowserStateM)
    (previous_state : Option BrowserStateM) : BrowserStateM :=
  match previous_state with
  | none => s
  | some p =>
    if s.url ≠ p.url then s
    else
      let previous_indices := p.elements.map (fun e => e.index)
      { s with elements := s.elements.map (fun e =>
          { e with is_new := decide (e.index ∉ previous_indices) }) }

/-- The `_previous_state` / `_current_state` tracking fields of
`BrowserSession`. -/
structure SessionTracking where
  previous_state : Option BrowserStateM := none
  current_state : Option BrowserStateM := none
deriving Repr, DecidableEq

/-- The force-refresh path of `BrowserSession.get_state`: fetch a fresh
state from the driver, mark new elements against `_previous_state` (only
when that is set), and only afterwards shift the tracking fields
(`_previous_state := _current_state; _current_state := state`). -/
def BrowserSession.getStateFresh (sess : SessionTracking)
    (driverState : BrowserStateM) : BrowserStateM × SessionTracking :=
  let state := match sess.previous_state with
    | some _ => driverState.mark_new_elements sess.previous_state
    | none => driverState
  (state, { previous_state := sess.current_state, current_state := some state })

/-! ## Claim C3 -/

/-- First snapshot: same URL, no elements. -/
def c3s1 : BrowserStateM := { url := "https://a.example/page" }

/-- Second and third snapshots: same URL, one element with index 1. -/
def c3s2 : BrowserStateM :=
  { url := "https://a.example/page", elements := [{ index := 1 }] }

/-- C3 (evaluation at the failing input): over three successive fresh
`get_state` calls at one URL, the element of index 1 — absent from snapshot
1, present in snapshots 2 and 3 — is NOT marked new on snapshot 2 (where the
claim requires it: `_previous_state` still lags at `None`), and IS marked
new on snapshot 3 (where the claim forbids it: the code compares against
snapshot 1, two fetches back, instead of the immediately preceding
snapshot 2). -/
theorem c3_marking_lags_one_snapshot :
    (BrowserSession.getStateFresh {} c3s1).1.elements = [] ∧
    (BrowserSession.getStateFresh
        (BrowserSession.getStateFresh {} c3s1).2 c3s2).1.elements.map
      (fun e => (e.index, e.is_new)) = [(1, false)] ∧
    (BrowserSession.getStateFresh
        (BrowserSession.getStateFresh
          (BrowserSession.getStateFresh {} c3s1).2 c3s2).2 c3s2).1.elements.map
      (fun e => (e.index, e.is_new)) = [(1, true)] := by
  decide

/-! ## `agent/executor.py`: response parsing, action execution, run loop -/

/-- An action's parameter payload. Canonicalisation
(`json.dumps(params, sort_keys=True)`) is a deterministic injective encoding
of the payload, so payloads are modelled directly by their canonical JSON
text. -/
abbrev ParamsV := String

/-- One entry of the raw `action` list of a decoded LLM response: a JSON
object (an ordered list of key/payload pairs) or some non-object value. -/
inductive RawActionEntry where
  | dict (fields : List (String × ParamsV))
  | nondict
deriving Repr, DecidableEq

/-- A decoded LLM response (the result of `json.loads` in
`Agent._parse_response`); `action` is `data.get("action", [])`. -/
structure ResponseData where
  thinking : Option String := none
  evaluation_previous_goal : Option String := none
  memory : Option String := none
  next_goal : Option String := none
  action : List RawActionEntry := []
deriving Repr, DecidableEq

/-- `AgentOutput` as built by `_parse_response`: the reasoning fields plus
the validated (dict-only) action list. -/
structure AgentOutput where
  thinking : Option String := none
  evaluation_previous_goal : Option String := none
  memory : Option String := none
  next_goal : Option String := none
  action : List (List (String × ParamsV)) := []
deriving Repr, DecidableEq

/-- `Agent._parse_response` on a decoded response: an empty action list
raises (`ValueError` wrapped into a recoverable `LLMResponseError`);
otherwise non-dict entries are filtered out and the output built. -/
def Agent.parse_response (data : ResponseData) : Except String AgentOutput :=
  if data.action.isEmpty then
    .error "Failed to parse response: No actions in response"
  else
    .ok { thinking := data.thinking,
          evaluation_previous_goal := data.evaluation_previous_goal,
          memory := data.memory,
          next_goal := data.next_goal,
          action := data.action.filterMap
            (fun a => match a with
              | .dict fields => some fields
              | .nondict => none) }

/-- The loop body of `Agent._execute_actions`: skip falsy (empty) action
dicts, execute the first key's action, stop after a result with a truthy
error or `is_done`. `exec` models `self.tools.execute` (an exception inside
it is represented by a result whose `error` is the exception text, which the
source appends before breaking — the same observable behaviour). -/
def executeActionsGo (exec : String → ParamsV → ActionResult) :
    List (List (String × ParamsV)) → List ActionResult → List ActionResult
  | [], acc => acc
  | a :: rest, acc =>
    match a with
    | [] => executeActionsGo exec rest acc
    | (action_name, params) :: _ =>
      let result := exec action_name params
      let acc2 := acc ++ [result]
      if result.errTruthy ∨ result.is_done then acc2
      else executeActionsGo exec rest acc2

/-- `Agent._execute_actions`: at most `maxActions` entries
(`max_actions_per_step`, default 4) are considered; an empty result list
becomes `[ActionResult()]`. -/
def Agent.execute_actions (exec : String → ParamsV → ActionResult)
    (maxActions : Nat) (actions : List (List (String × ParamsV))) :
    List ActionResult :=
  let results := executeActionsGo exec (actions.take maxActions) []
  if results.isEmpty then [defaultActionResult] else results

/-- One history entry (`AgentHistory`): the parsed output and the step's
results. Url/title/screenshot/timing metadata are carried by the source but
never read by the embedded control flow, and are elided. -/
structure HistEntry where
  model_output : Option AgentOutput := none
  results : List ActionResult := []
deriving Repr, DecidableEq

/-- The control-flow slice of `AgentState`. -/
structure RunState where
  n_steps : Nat := 0
  consecutive_failures : Nat := 0
  is_done : Bool := false
  success : Option Bool := none
  is_stopped : Bool := false
deriving Repr, DecidableEq

/-- The done-check of `Agent._execute_step`: the first `is_done` result sets
the terminal state and its `success`. -/
def applyResultsDone (st : RunState) (results : List ActionResult) : RunState :=
  match results.find? (fun r => r.is_done) with
  | some r => { st with is_done := true, success := r.success }
  | none => st

/-- The failure-counter reset of `Agent._execute_step`: reset to zero iff no
result carries a truthy error. -/
def applyFailureReset (st : RunState) (results : List ActionResult) : RunState :=
  if results.any (fun r => r.errTruthy) then st
  else { st with consecutive_failures := 0 }

/-- `Agent._execute_step` (its decision/recording core): parse the oracle's
response — a parse failure propagates as a recoverable exception — then
execute the actions, append the history entry, apply the done-check and the
failure reset. -/
def Agent.execute_step (maxActions : Nat) (exec : String → ParamsV → ActionResult)
    (resp : ResponseData) (st : RunState) (h : List HistEntry) :
    Except String (RunState × List HistEntry) :=
  match Agent.parse_response resp with
  | .error e => .error e
  | .ok out =>
    let results := Agent.execute_actions exec maxActions out.action
    let h2 := h ++ [{ model_output := some out, results := results }]
    let st2 := applyFailureReset (applyResultsDone st results) results
    .ok (st2, h2)

/-- `AgentHistoryList.final_result`: the last entry's last result's
extracted content (which may be `None`), or `None`. -/
def finalResult (h : List HistEntry) : Option String :=
  match h.getLast? with
  | some last =>
    match last.results.getLast? with
    | some r => r.extracted_content
    | none => none
  | none => none

/-- `AgentHistoryList.extracted_content`: every truthy extracted content in
history order. -/
def extractedContents (h : List HistEntry) : List String :=
  h.foldl
    (fun acc e => acc ++ e.results.filterMap
      (fun r => match r.extracted_content with
        | some s => if s ≠ "" then some s else none
        | none => none))
    []

/-- The fallback text of `Agent._force_completion`. -/
def taskIncompleteFallback : String := "Task incomplete - max steps reached"

/-- The content synthesized by `_force_completion`:
`self.history.final_result() or "Task incomplete - max steps reached"`
(Python `or`: `None` and `""` both fall back). -/
def forcedContent (h : List HistEntry) : String :=
  match finalResult h with
  | some s => if s = "" then taskIncompleteFallback else s
  | none => taskIncompleteFallback

/-- `Agent._force_completion`: append a synthetic terminal entry whose single
result is done with success `False` and the synthesized content, and mark
the agent state done/unsuccessful. -/
def Agent.force_completion (st : RunState) (h : List HistEntry) :
    RunState × List HistEntry :=
  let done_result : ActionResult :=
    { is_done := true, success := some false,
      extracted_content := some (forcedContent h),
      long_term_memory := some "Task incomplete due to step limit" }
  ({ st with is_done := true, success := some false },
   h ++ [{ results := [done_result] }])

/-- The `while` loop of `Agent.run`, with the remaining step budget
(`max_steps - n_steps`) as fuel: each iteration runs one step; an exception
from the step increments the consecutive-failure counter and, at
`max_failures`, raises the fatal `MaxFailuresReachedError` (the
`Except.error`); `n_steps` increments on both paths. -/
def Agent.runAux (oracle : Nat → ResponseData)
    (exec : Nat → String → ParamsV → ActionResult)
    (maxActions maxFailures : Nat) :
    Nat → RunState → List HistEntry → Except Unit (RunState × List HistEntry)
  | 0, st, h => .ok (st, h)
  | fuel + 1, st, h =>
    if st.is_done then .ok (st, h)
    else if st.is_stopped then .ok (st, h)
    else
      match Agent.execute_step maxActions (exec st.n_steps) (oracle st.n_steps) st h with
      | .error _ =>
        let c := st.consecutive_failures + 1
        if maxFailures ≤ c then .error ()
        else Agent.runAux oracle exec maxActions maxFailures fuel
          { st with consecutive_failures := c, n_steps := st.n_steps + 1 } h
      | .ok r =>
        Agent.runAux oracle exec maxActions maxFailures fuel
          { r.1 with n_steps := r.1.n_steps + 1 } r.2

/-- `Agent.run`: run the loop from a fresh state with fuel `max_steps`; if
it ends with the budget exhausted and no terminal action, force completion;
a `MaxFailuresReachedError` propagates. -/
def Agent.run (oracle : Nat → ResponseData)
    (exec : Nat → String → ParamsV → ActionResult)
    (maxActions maxFailures maxSteps : Nat) :
    Except Unit (RunState × List HistEntry) :=
  match Agent.runAux oracle exec maxActions maxFailures maxSteps {} [] with
  | .error e => .error e
  | .ok r =>
    if maxSteps ≤ r.1.n_steps ∧ r.1.is_done = false then
      .ok (Agent.force_completion r.1 r.2)
    else .ok r

/-! ## Claim C6 -/

/-- C6: when the oracle's response for the current step has an empty action
list, the step raises the recoverable parse failure, and the run loop
increments the consecutive-failure counter by exactly one, aborts with the
fatal max-failures error exactly when the incremented counter reaches
`max_failures`, and otherwise continues with the counter incremented and the
history unchanged. -/
theorem c6_zero_actions_recoverable (oracle : Nat → ResponseData)
    (exec : Nat → String → ParamsV → ActionResult)
    (maxActions maxFailures fuel : Nat) (st : RunState) (h : List HistEntry)
    (hact : (oracle st.n_steps).action = [])
    (hdone : st.is_done = false) (hstop : st.is_stopped = false) :
    Agent.parse_response (oracle st.n_steps) =
      .error "Failed to parse response: No actions in response" ∧
    Agent.runAux oracle exec maxActions maxFailures (fuel + 1) st h =
      (if maxFailures ≤ st.consecutive_failures + 1 then .error ()
       else Agent.runAux oracle exec maxActions maxFailures fuel
         { st with consecutive_failures := st.consecutive_failures + 1,
                   n_steps := st.n_steps + 1 } h) := by
  have hparse : Agent.parse_response (oracle st.n_steps) =
      .error "Failed to parse response: No actions in response" := by
    unfold Agent.parse_response
    rw [hact]
    rfl
  have hd : ¬(st.is_done = true) := by simp [hdone]
  have hs : ¬(st.is_stopped = true) := by simp [hstop]
  refine ⟨hparse, ?_⟩
  conv_lhs => unfold Agent.runAux
  rw [if_neg hd, if_neg hs]
  unfold Agent.execute_step
  rw [hparse]

/-- The C6 witness oracle: every response decodes with `action = []`. -/
def c6Oracle : Nat → ResponseData := fun _ => {}

/-- The C6 witness executor (never reached). -/
def c6Exec : Nat → String → ParamsV → ActionResult := fun _ _ _ =>
  defaultActionResult

/-- C6 witness: with `max_failures = 3` and a fresh state, a zero-action
response is a recoverable parse failure and one loop iteration continues
(no abort) with the failure counter at exactly 1. -/
theorem c6_zero_actions_witness :
    (c6Oracle (({} : RunState)).n_steps).action = [] ∧
    Agent.parse_response (c6Oracle 0) =
      .error "Failed to parse response: No actions in response" ∧
    Agent.runAux c6Oracle c6Exec 4 3 5 {} [] =
      Agent.runAux c6Oracle c6Exec 4 3 4
        { n_steps := 1, consecutive_failures := 1 } [] := by
  have happ := c6_zero_actions_recoverable c6Oracle c6Exec 4 3 4 {} [] rfl rfl rfl
  refine ⟨rfl, happ.1, ?_⟩
  rw [happ.2]
  rfl

/-! ## Claim C7 -/

/-- C7 (amended): if the run loop exhausts the step budget with no terminal
action, `Agent.run` exits without raising: it returns the forced-completion
state, which is done with success `False`, and appends a terminal entry
whose single result's extracted content is `forcedContent` of the loop
history — the last entry's last result's extracted content when that is
non-empty, otherwise the "Task incomplete - max steps reached" fallback —
and that content is never empty. -/
theorem c7_forced_completion (oracle : Nat → ResponseData)
    (exec : Nat → String → ParamsV → ActionResult)
    (maxActions maxFailures maxSteps : Nat) (st : RunState) (h : List HistEntry)
    (hloop : Agent.runAux oracle exec maxActions maxFailures maxSteps {} [] =
      .ok (st, h))
    (hsteps : maxSteps ≤ st.n_steps) (hnotdone : st.is_done = false) :
    Agent.run oracle exec maxActions maxFailures maxSteps =
      .ok (Agent.force_completion st h) ∧
    (Agent.force_completion st h).1.is_done = true ∧
    (Agent.force_completion st h).1.success = some false ∧
    (Agent.force_completion st h).2.getLast? =
      some { results := [{ is_done := true,
                           success := some false,
                           extracted_content := some (forcedContent h),
                           long_term_memory :=
                             some "Task incomplete due to step limit" }] } ∧
    forcedContent h ≠ "" := by
  refine ⟨?_, rfl, rfl, ?_, ?_⟩
  · unfold Agent.run
    rw [hloop]
    dsimp only
    rw [if_pos ⟨hsteps, hnotdone⟩]
  · show (h ++ [_]).getLast? = _
    rw [List.getLast?_concat]
  · unfold forcedContent
    cases hf : finalResult h with
    | none => decide
    | some s =>
      dsimp only
      by_cases hse : s = ""
      · rw [if_pos hse]
        decide
      · rw [if_neg hse]
        exact hse

/-- A C7 witness oracle proposing one `wait` action per step. -/
def c7wOracle : Nat → ResponseData := fun _ =>
  { action := [RawActionEntry.dict [("wait", "3")]] }

/-- The C7 witness executor: every action yields a default result. -/
def c7wExec : Nat → String → ParamsV → ActionResult := fun _ _ _ =>
  defaultActionResult

/-- The state in which the witness run's loop ends. -/
def c7wLoopSt : RunState := { n_steps := 2 }

/-- The history with which the witness run's loop ends. -/
def c7wLoopHist : List HistEntry :=
  [ { model_output := some { action := [[("wait", "3")]] },
      results := [defaultActionResult] },
    { model_output := some { action := [[("wait", "3")]] },
      results := [defaultActionResult] } ]

/-- C7 witness: a two-step budget exhausted by `wait` actions forces
completion with `Done(false)` and the non-empty fallback content. -/
theorem c7_forced_completion_witness :
    (Agent.runAux c7wOracle c7wExec 4 3 2 {} [] = .ok (c7wLoopSt, c7wLoopHist) ∧
     2 ≤ c7wLoopSt.n_steps ∧ c7wLoopSt.is_done = false) ∧
    Agent.run c7wOracle c7wExec 4 3 2 =
      .ok (Agent.force_completion c7wLoopSt c7wLoopHist) ∧
    (Agent.force_completion c7wLoopSt c7wLoopHist).1.is_done = true ∧
    (Agent.force_completion c7wLoopSt c7wLoopHist).1.success = some false ∧
    forcedContent c7wLoopHist ≠ "" := by
  have happ := c7_forced_completion c7wOracle c7wExec 4 3 2 c7wLoopSt c7wLoopHist
    rfl (by decide) rfl
  exact ⟨⟨rfl, by decide, rfl⟩, happ.1, happ.2.1, happ.2.2.1, happ.2.2.2.2⟩

/-- The C7 counterexample oracle: an extraction on step 0, then `wait`s. -/
def c7cOracle : Nat → ResponseData := fun n =>
  if n = 0 then { action := [RawActionEntry.dict [("extract_content", "q")]] }
  else { action := [RawActionEntry.dict [("wait", "3")]] }

/-- The C7 counterexample executor: step 0 extracts "Found data X", later
steps return nothing. -/
def c7cExec : Nat → String → ParamsV → ActionResult := fun n _ _ =>
  if n = 0 then { extracted_content := some "Found data X" } else defaultActionResult

/-- The C7 counterexample run's final state and history. -/
def c7cFin : RunState × List HistEntry :=
  match Agent.run c7cOracle c7cExec 4 3 2 with
  | .ok r => r
  | .error _ => ({}, [])

/-- C7 counterexample: the run reaches the two-step budget with no terminal
action; extracted content "Found data X" is available in the history (it is
the last available extracted content), yet the synthesized terminal result
carries the "Task incomplete - max steps reached" fallback instead, because
`final_result()` looks only at the very last history entry. This refutes
the claim's "the last available extracted content when one exists". -/
theorem c7_last_available_content_ignored :
    Agent.run c7cOracle c7cExec 4 3 2 = .ok c7cFin ∧
    extractedContents c7cFin.2 = ["Found data X", taskIncompleteFallback] ∧
    (c7cFin.2.getLast?.map (fun e => e.results.map
      (fun r => r.extracted_content))) = some [some taskIncompleteFallback] ∧
    taskIncompleteFallback ≠ "Found data X" := by
  refine ⟨rfl, rfl, rfl, ?_⟩
  decide

/-! ## Claim C10 -/

/-- C10: when a response's action list is non-empty but every entry is an
empty dict, parsing succeeds, action execution performs no action and
returns the single default `ActionResult` (no error, not done), and the step
consequently resets the consecutive-failure counter to zero. -/
theorem c10_empty_entries_noop (exec : String → ParamsV → ActionResult)
    (maxActions : Nat) (resp : ResponseData) (st : RunState)
    (h : List HistEntry) (hne : resp.action ≠ [])
    (hall : ∀ a ∈ resp.action, a = RawActionEntry.dict []) :
    defaultActionResult.error = none ∧
    defaultActionResult.is_done = false ∧
    ∃ out, Agent.parse_response resp = .ok out ∧
      Agent.execute_actions exec maxActions out.action = [defaultActionResult] ∧
      Agent.execute_step maxActions exec resp st h =
        .ok ({ st with consecutive_failures := 0 },
          h ++ [{ model_output := some out, results := [defaultActionResult] }]) := by
  have hparse : Agent.parse_response resp =
      .ok { thinking := resp.thinking,
            evaluation_previous_goal := resp.evaluation_previous_goal,
            memory := resp.memory,
            next_goal := resp.next_goal,
            action := resp.action.filterMap
              (fun a => match a with
                | .dict fields => some fields
                | .nondict => none) } := by
    unfold Agent.parse_response
    rw [if_neg (by simpa using hne)]
  have hallempty : ∀ l ∈ resp.action.filterMap
      (fun a => match a with
        | RawActionEntry.dict fields => some fields
        | RawActionEntry.nondict => none), l = [] := by
    intro l hl
    rcases List.mem_filterMap.mp hl with ⟨a, ha, hfa⟩
    rcases hall a ha with rfl
    simpa using hfa.symm
  have hgo : ∀ (acts : List (List (String × ParamsV))),
      (∀ l ∈ acts, l = []) → ∀ acc, executeActionsGo exec acts acc = acc := by
    intro acts
    induction acts with
    | nil => intro _ acc; rfl
    | cons a rest ih =>
      intro hall2 acc
      have ha : a = [] := hall2 a (by simp)
      subst ha
      unfold executeActionsGo
      exact ih (fun l hl => hall2 l (by simp [hl])) acc
  have hexec : Agent.execute_actions exec maxActions
      (resp.action.filterMap
        (fun a => match a with
          | RawActionEntry.dict fields => some fields
          | RawActionEntry.nondict => none)) = [defaultActionResult] := by
    unfold Agent.execute_actions
    rw [hgo _ (fun l hl => hallempty l (List.mem_of_mem_take hl)) []]
    rfl
  refine ⟨rfl, rfl, _, hparse, hexec, ?_⟩
  unfold Agent.execute_step
  rw [hparse]
  dsimp only
  rw [hexec]
  rfl

/-- The C10 witness executor (never invoked). -/
def c10Exec : String → ParamsV → ActionResult := fun _ _ => defaultActionResult

/-- The C10 witness response: two empty-dict action entries. -/
def c10Resp : ResponseData :=
  { action := [RawActionEntry.dict [], RawActionEntry.dict []] }

/-- C10 witness: with a prior failure count of 2, an all-empty action list
executes as a successful no-op resetting the counter to zero. -/
theorem c10_empty_entries_witness :
    (c10Resp.action ≠ [] ∧ ∀ a ∈ c10Resp.action, a = RawActionEntry.dict []) ∧
    ∃ out, Agent.parse_response c10Resp = .ok out ∧
      Agent.execute_actions c10Exec 4 out.action = [defaultActionResult] ∧
      Agent.execute_step 4 c10Exec c10Resp { consecutive_failures := 2 } [] =
        .ok ({ consecutive_failures := 0 },
          [{ model_output := some out, results := [defaultActionResult] }]) := by
  have happ := c10_empty_entries_noop c10Exec 4 c10Resp
    { consecutive_failures := 2 } [] (by decide) (by decide)
  exact ⟨⟨by decide, by decide⟩, happ.2.2⟩

/-! ## `tutorial/agent.py`: loop/stall detection -/

/-- `self._max_repeated_actions = 2` (tutorial/agent.py line 183). -/
def maxRepeatedActions : Nat := 2

/-- The forced `ActionResult` appended when the repeated-action loop is
broken (tutorial/agent.py lines 541-545). -/
def stuckLoopResult : ActionResult :=
  { is_done := true, success := some false,
    extracted_content := some "Task incomplete - got stuck in a loop clicking the same element. There may be a popup or overlay blocking the target." }

/-- An action signature:
`f"{action_name}:{json.dumps(params, sort_keys=True)}"`. -/
def actionSig (action_name : String) (params : ParamsV) : String :=
  action_name ++ ":" ++ params

/-- Signature tracking: append, then drop the oldest entry once the window
holds more than 10 signatures. -/
def trackAction (recent : List String) (sig : String) : List String :=
  let r := recent ++ [sig]
  if r.length > 10 then r.drop 1 else r

/-- The action loop of `TutorialAgent._execute_and_capture_actions`: per
action, count the signature in the recent window; at or above the threshold
attempt an escape (an external side effect with no model state) and, at or
beyond threshold + 2 occurrences, append the stuck result and stop without
executing; otherwise track the signature and execute, stopping after an
error or terminal result. -/
def executeCaptureGo (exec : String → ParamsV → ActionResult) :
    List (List (String × ParamsV)) → List ActionResult → List String →
    List ActionResult × List String
  | [], acc, recent => (acc, recent)
  | a :: rest, acc, recent =>
    match a with
    | [] => executeCaptureGo exec rest acc recent
    | (action_name, params) :: _ =>
      let sig := actionSig action_name params
      let count := recent.count sig
      if maxRepeatedActions ≤ count ∧ maxRepeatedActions + 2 ≤ count then
        (acc ++ [stuckLoopResult], recent)
      else
        let recent2 := trackAction recent sig
        let result := exec action_name params
        let acc2 := acc ++ [result]
        if result.errTruthy ∨ result.is_done then (acc2, recent2)
        else executeCaptureGo exec rest acc2 recent2

/-- `TutorialAgent._execute_and_capture_actions`: at most 4 actions per
step; an empty result list becomes `[ActionResult()]`. -/
def TutorialAgent.execute_and_capture (exec : String → ParamsV → ActionResult)
    (actions : List (List (String × ParamsV))) (recent : List String) :
    List ActionResult × List String :=
  let r := executeCaptureGo exec (actions.take 4) [] recent
  (if r.1.isEmpty then [defaultActionResult] else r.1, r.2)

/-- The control-flow state of a `TutorialAgent` run. -/
structure TutState where
  n_steps : Nat := 0
  consecutive_failures : Nat := 0
  is_done : Bool := false
  success : Option Bool := none
  is_stopped : Bool := false
  recent_actions : List String := []
  history : List HistEntry := []
deriving Repr, DecidableEq

/-- `TutorialAgent._execute_step` (decision/recording core): parse the
response (same `_parse_response` as the main agent), run the capture loop,
append history, apply the done-check and the failure reset. -/
def TutorialAgent.execute_step (exec : String → ParamsV → ActionResult)
    (resp : ResponseData) (ts : TutState) : Except String TutState :=
  match Agent.parse_response resp with
  | .error e => .error e
  | .ok out =>
    let r := TutorialAgent.execute_and_capture exec out.action ts.recent_actions
    let ts2 :=
      { ts with recent_actions := r.2,
                history := ts.history ++
                  [{ model_output := some out, results := r.1 }] }
    let ts3 := match r.1.find? (fun q => q.is_done) with
      | some q => { ts2 with is_done := true, success := q.success }
      | none => ts2
    if r.1.any (fun q => q.errTruthy) then .ok ts3
    else .ok { ts3 with consecutive_failures := 0 }

/-- The main execution loop of `TutorialAgent.run` (lines 377-390), with the
remaining step budget as fuel; failure semantics identical to `Agent.run`'s
loop. -/
def TutorialAgent.runAux (oracle : Nat → ResponseData)
    (exec : Nat → String → ParamsV → ActionResult) (maxFailures : Nat) :
    Nat → TutState → Except Unit TutState
  | 0, ts => .ok ts
  | fuel + 1, ts =>
    if ts.is_done then .ok ts
    else if ts.is_stopped then .ok ts
    else
      match TutorialAgent.execute_step (exec ts.n_steps) (oracle ts.n_steps) ts with
      | .error _ =>
        let c := ts.consecutive_failures + 1
        if maxFailures ≤ c then .error ()
        else TutorialAgent.runAux oracle exec maxFailures fuel
          { ts with consecutive_failures := c, n_steps := ts.n_steps + 1 }
      | .ok ts2 =>
        TutorialAgent.runAux oracle exec maxFailures fuel
          { ts2 with n_steps := ts2.n_steps + 1 }

/-- `TutorialAgent.run`'s loop from a fresh state with fuel `max_steps`. -/
def TutorialAgent.run (oracle : Nat → ResponseData)
    (exec : Nat → String → ParamsV → ActionResult)
    (maxFailures maxSteps : Nat) : Except Unit TutState :=
  TutorialAgent.runAux oracle exec maxFailures maxSteps {}

/-! ## Claim C8 -/

theorem tutorial_runAux_done (oracle : Nat → ResponseData)
    (exec : Nat → String → ParamsV → ActionResult) (maxFailures fuel : Nat)
    (ts : TutState) (hdone : ts.is_done = true) :
    TutorialAgent.runAux oracle exec maxFailures fuel ts = .ok ts := by
  cases fuel with
  | zero => rfl
  | succ f =>
    conv_lhs => unfold TutorialAgent.runAux
    rw [if_pos hdone]

theorem tutorial_runAux_step (oracle : Nat → ResponseData)
    (exec : Nat → String → ParamsV → ActionResult) (maxFailures fuel : Nat)
    (ts ts2 : TutState) (hdone : ts.is_done = false) (hstop : ts.is_stopped = false)
    (hstep : TutorialAgent.execute_step (exec ts.n_steps) (oracle ts.n_steps) ts =
      .ok ts2) :
    TutorialAgent.runAux oracle exec maxFailures (fuel + 1) ts =
      TutorialAgent.runAux oracle exec maxFailures fuel
        { ts2 with n_steps := ts2.n_steps + 1 } := by
  conv_lhs => unfold TutorialAgent.runAux
  rw [if_neg (by simp [hdone]), if_neg (by simp [hstop]), hstep]

theorem tutorial_step_tracks (name : String) (params : ParamsV)
    (exec1 : String → ParamsV → ActionResult) (resp : ResponseData)
    (ts : TutState)
    (hresp : resp.action = [RawActionEntry.dict [(name, params)]])
    (hxe : (exec1 name params).errTruthy = false)
    (hxd : (exec1 name params).is_done = false)
    (hcount : ts.recent_actions.count (actionSig name params) ≤ 3)
    (hlen : ts.recent_actions.length ≤ 9) :
    TutorialAgent.execute_step exec1 resp ts = .ok
      { ts with
        recent_actions := ts.recent_actions ++ [actionSig name params],
        history := ts.history ++
          [{ model_output := some
               { thinking := resp.thinking,
                 evaluation_previous_goal := resp.evaluation_previous_goal,
                 memory := resp.memory,
                 next_goal := resp.next_goal,
                 action := [[(name, params)]] },
             results := [exec1 name params] }],
        consecutive_failures := 0 } := by
  have hparse : Agent.parse_response resp = .ok
      { thinking := resp.thinking,
        evaluation_previous_goal := resp.evaluation_previous_goal,
        memory := resp.memory,
        next_goal := resp.next_goal,
        action := [[(name, params)]] } := by
    unfold Agent.parse_response
    rw [hresp]
    rfl
  unfold TutorialAgent.execute_step
  rw [hparse]
  have hcap : TutorialAgent.execute_and_capture exec1 [[(name, params)]]
      ts.recent_actions =
      ([exec1 name params], ts.recent_actions ++ [actionSig name params]) := by
    unfold TutorialAgent.execute_and_capture
    have hgo : executeCaptureGo exec1 (List.take 4 [[(name, params)]]) []
        ts.recent_actions =
        ([exec1 name params], ts.recent_actions ++ [actionSig name params]) := by
      show executeCaptureGo exec1 [[(name, params)]] [] ts.recent_actions = _
      unfold executeCaptureGo
      dsimp only
      rw [if_neg (by simp only [maxRepeatedActions]; omega :
        ¬(maxRepeatedActions ≤ List.count (actionSig name params) ts.recent_actions ∧
          maxRepeatedActions + 2 ≤ List.count (actionSig name params) ts.recent_actions))]
      have htrack : trackAction ts.recent_actions (actionSig name params) =
          ts.recent_actions ++ [actionSig name params] := by
        unfold trackAction
        rw [if_neg (by simp only [List.length_append, List.length_cons,
          List.length_nil]; omega)]
      rw [htrack, hxe, hxd]
      rfl
    rw [hgo]
    rfl
  dsimp only
  rw [hcap]
  dsimp only
  rw [show (List.find? (fun q => q.is_done) [exec1 name params]) = none by
    simp [List.find?, hxd]]
  rw [show (List.any [exec1 name params] (fun q => q.errTruthy)) = false by
    simp [List.any, hxe]]
  rfl

theorem tutorial_step_stalls (name : String) (params : ParamsV)
    (exec1 : String → ParamsV → ActionResult) (resp : ResponseData)
    (ts : TutState)
    (hresp : resp.action = [RawActionEntry.dict [(name, params)]])
    (hcount : ts.recent_actions.count (actionSig name params) = 4) :
    TutorialAgent.execute_step exec1 resp ts = .ok
      { ts with
        history := ts.history ++
          [{ model_output := some
               { thinking := resp.thinking,
                 evaluation_previous_goal := resp.evaluation_previous_goal,
                 memory := resp.memory,
                 next_goal := resp.next_goal,
                 action := [[(name, params)]] },
             results := [stuckLoopResult] }],
        is_done := true,
        success := some false,
        consecutive_failures := 0 } := by
  have hparse : Agent.parse_response resp = .ok
      { thinking := resp.thinking,
        evaluation_previous_goal := resp.evaluation_previous_goal,
        memory := resp.memory,
        next_goal := resp.next_goal,
        action := [[(name, params)]] } := by
    unfold Agent.parse_response
    rw [hresp]
    rfl
  unfold TutorialAgent.execute_step
  rw [hparse]
  have hcap : TutorialAgent.execute_and_capture exec1 [[(name, params)]]
      ts.recent_actions = ([stuckLoopResult], ts.recent_actions) := by
    unfold TutorialAgent.execute_and_capture
    have hgo : executeCaptureGo exec1 (List.take 4 [[(name, params)]]) []
        ts.recent_actions = ([stuckLoopResult], ts.recent_actions) := by
      show executeCaptureGo exec1 [[(name, params)]] [] ts.recent_actions = _
      unfold executeCaptureGo
      dsimp only
      rw [if_pos (show maxRepeatedActions ≤
          List.count (actionSig name params) ts.recent_actions ∧
          maxRepeatedActions + 2 ≤
            List.count (actionSig name params) ts.recent_actions by
        rw [hcount]
        exact ⟨by norm_num [maxRepeatedActions], by norm_num [maxRepeatedActions]⟩)]
      rfl
    rw [hgo]
    rfl
  dsimp only
  rw [hcap]
  dsimp only
  rw [show (List.find? (fun q => q.is_done) [stuckLoopResult]) =
    some stuckLoopResult by rfl]
  rw [show (List.any [stuckLoopResult] (fun q => q.errTruthy)) = false by rfl]
  rfl

/-- C8: if the oracle proposes the same single action (same name, same
canonicalized parameters) on every step and executing it never errors and
never terminates the task, then with a step budget of at least
threshold + 3 = 5, the tutorial run deterministically reaches a terminal
`Done(false)` state after exactly threshold + 3 steps: the fifth occurrence
is not executed, the forced stuck result ends the run. -/
theorem c8_repeated_signature_forces_done (name : String) (params : ParamsV)
    (oracle : Nat → ResponseData) (exec : Nat → String → ParamsV → ActionResult)
    (maxFailures maxSteps : Nat)
    (horacle : ∀ n, (oracle n).action = [RawActionEntry.dict [(name, params)]])
    (hexec : ∀ n, (exec n name params).errTruthy = false ∧
      (exec n name params).is_done = false)
    (hsteps : maxRepeatedActions + 3 ≤ maxSteps) :
    ∃ ts, TutorialAgent.run oracle exec maxFailures maxSteps = .ok ts ∧
      ts.is_done = true ∧ ts.success = some false ∧
      ts.n_steps = maxRepeatedActions + 3 := by
  have advance : ∀ (fuel : Nat) (ts : TutState) (i : Nat),
      ts.is_done = false → ts.is_stopped = false →
      ts.recent_actions = List.replicate i (actionSig name params) → i ≤ 3 →
      ∃ ts2, TutorialAgent.runAux oracle exec maxFailures (fuel + 1) ts =
          TutorialAgent.runAux oracle exec maxFailures fuel ts2 ∧
        ts2.is_done = false ∧ ts2.is_stopped = false ∧
        ts2.recent_actions = List.replicate (i + 1) (actionSig name params) ∧
        ts2.n_steps = ts.n_steps + 1 := by
    intro fuel ts i hd hs hr hi
    have hcount : List.count (actionSig name params) ts.recent_actions ≤ 3 := by
      rw [hr, List.count_replicate_self]
      exact hi
    have hlen : ts.recent_actions.length ≤ 9 := by
      rw [hr, List.length_replicate]
      omega
    have hstep := tutorial_step_tracks name params (exec ts.n_steps)
      (oracle ts.n_steps) ts (horacle ts.n_steps) (hexec ts.n_steps).1
      (hexec ts.n_steps).2 hcount hlen
    refine ⟨_, tutorial_runAux_step oracle exec maxFailures fuel ts _ hd hs hstep,
      hd, hs, ?_, rfl⟩
    show ts.recent_actions ++ [actionSig name params] = _
    rw [hr]
    exact (List.replicate_succ' i (actionSig name params)).symm
  have stall : ∀ (fuel : Nat) (ts : TutState),
      ts.is_done = false → ts.is_stopped = false →
      ts.recent_actions = List.replicate 4 (actionSig name params) →
      ∃ ts2, TutorialAgent.runAux oracle exec maxFailures (fuel + 1) ts =
          TutorialAgent.runAux oracle exec maxFailures fuel ts2 ∧
        ts2.is_done = true ∧ ts2.success = some false ∧
        ts2.n_steps = ts.n_steps + 1 := by
    intro fuel ts hd hs hr
    have hcount : List.count (actionSig name params) ts.recent_actions = 4 := by
      rw [hr, List.count_replicate_self]
    have hstep := tutorial_step_stalls name params (exec ts.n_steps)
      (oracle ts.n_steps) ts (horacle ts.n_steps) hcount
    exact ⟨_, tutorial_runAux_step oracle exec maxFailures fuel ts _ hd hs hstep,
      rfl, rfl, rfl⟩
  obtain ⟨k, hk⟩ := Nat.exists_eq_add_of_le hsteps
  have hm : maxSteps = ((((k + 1) + 1) + 1) + 1) + 1 := by
    simp only [maxRepeatedActions] at hk
    omega
  obtain ⟨ts1, e1, d1, s1, r1, n1⟩ := advance ((((k + 1) + 1) + 1) + 1) {} 0
    rfl rfl rfl (by omega)
  obtain ⟨ts2, e2, d2, s2, r2, n2⟩ := advance (((k + 1) + 1) + 1) ts1 1
    d1 s1 r1 (by omega)
  obtain ⟨ts3, e3, d3, s3, r3, n3⟩ := advance ((k + 1) + 1) ts2 2
    d2 s2 r2 (by omega)
  obtain ⟨ts4, e4, d4, s4, r4, n4⟩ := advance (k + 1) ts3 3
    d3 s3 r3 (by omega)
  obtain ⟨ts5, e5, d5, s5, n5⟩ := stall k ts4 d4 s4 r4
  refine ⟨ts5, ?_, d5, s5, ?_⟩
  · show TutorialAgent.runAux oracle exec maxFailures maxSteps {} = .ok ts5
    rw [hm, e1, e2, e3, e4, e5]
    exact tutorial_runAux_done oracle exec maxFailures k ts5 d5
  · rw [n5, n4, n3, n2, n1]
    show ({} : TutState).n_steps + 1 + 1 + 1 + 1 + 1 = maxRepeatedActions + 3
    norm_num [maxRepeatedActions]

/-- Witness for C8: an oracle that always proposes `click_element` on index 7
with a benign executor and a budget of 50 steps reaches Done(false) after
exactly 5 steps. -/
theorem c8_repeated_signature_forces_done_witness :
    ∃ ts, TutorialAgent.run
        (fun _ => { action := [RawActionEntry.dict [("click_element", "idx7")]] })
        (fun _ _ _ => defaultActionResult) 3 50 = .ok ts ∧
      ts.is_done = true ∧ ts.success = some false ∧
      ts.n_steps = maxRepeatedActions + 3 :=
  c8_repeated_signature_forces_done "click_element" "idx7"
    (fun _ => { action := [RawActionEntry.dict [("click_element", "idx7")]] })
    (fun _ _ _ => defaultActionResult) 3 50
    (fun _ => rfl) (fun _ => ⟨rfl, rfl⟩) (by decide)
